import Mathlib

/-!
Verification of the Genka resource-loading pipeline (package `data` of
utkarsh5026/Genka): a shallow embedding of the identifier catalog
(`file_names.go`), the concurrent batch fetcher (`loader.go`) and the
persistence layer (`file_manager.go`), together with theorems settling the
specification's claims about them.

Modelling conventions:
* byte buffers are `List Nat`;
* the external effects (HTTP, `encoding/json`, the filesystem) are oracles:
  a fetch function `String → Except String Bytes`, a validator
  `Bytes → Bool`, per-call/per-index success flags for `os.MkdirAll` and
  `os.WriteFile`, and an explicit filesystem state `FS`;
* goroutine completion order is an explicit parameter `σ : List Nat`
  (the order in which the per-item tasks run to completion); the theorems
  quantify over every permutation of the index range, which captures every
  schedule because distinct tasks touch disjoint slots or mutex-protected
  atomic sections.
-/

namespace Genka

abbrev Bytes := List Nat

/-! ## Identifier catalog (`src/data/file_names.go`) -/

abbrev GenshinDataFileName := String

def CharacterDataFile : GenshinDataFileName := "AvatarExcelConfigData"
def CharacterProfileFile : GenshinDataFileName := "FetterInfoExcelConfigData"
def CharacterCostumeFile : GenshinDataFileName := "AvatarCostumeExcelConfigData"
def CharacterSkillDepotFile : GenshinDataFileName := "AvatarSkillDepotExcelConfigData"
def CharacterSkillFile : GenshinDataFileName := "AvatarSkillExcelConfigData"
def CharacterTalentFile : GenshinDataFileName := "ProudSkillExcelConfigData"
def CharacterConstellationFile : GenshinDataFileName := "AvatarTalentExcelConfigData"
def CharacterAscensionFile : GenshinDataFileName := "AvatarPromoteExcelConfigData"
def CharacterStatCurveFile : GenshinDataFileName := "AvatarCurveExcelConfigData"
def CharacterReleaseInfoFile : GenshinDataFileName := "AvatarCodexExcelConfigData"
def ArtifactSetBonusFile : GenshinDataFileName := "EquipAffixExcelConfigData"
def ArtifactDataFile : GenshinDataFileName := "ReliquaryExcelConfigData"
def ArtifactMainStatFile : GenshinDataFileName := "ReliquaryLevelExcelConfigData"
def ArtifactSubStatFile : GenshinDataFileName := "ReliquaryAffixExcelConfigData"
def ArtifactSetDataFile : GenshinDataFileName := "ReliquarySetExcelConfigData"
def ArtifactRarityDataFile : GenshinDataFileName := "ReliquaryCodexExcelConfigData"
def WeaponDataFile : GenshinDataFileName := "WeaponExcelConfigData"
def WeaponAscensionFile : GenshinDataFileName := "WeaponPromoteExcelConfigData"
def WeaponStatCurveFile : GenshinDataFileName := "WeaponCurveExcelConfigData"
def WeaponReleaseInfoFile : GenshinDataFileName := "WeaponCodexExcelConfigData"
def TextMapFile : GenshinDataFileName := "ManualTextMapConfigData"
def TravelerDataFile : GenshinDataFileName := "AvatarHeroEntityExcelConfigData"
def ArchonDataFile : GenshinDataFileName := "TrialAvatarFetterDataConfigData"
def MaterialDataFile : GenshinDataFileName := "MaterialExcelConfigData"
def FriendshipRewardFile : GenshinDataFileName := "FetterCharacterCardExcelConfigData"
def RewardDataFile : GenshinDataFileName := "RewardExcelConfigData"
def ProfilePictureFile : GenshinDataFileName := "ProfilePictureExcelConfigData"
def TheaterDifficultyFile : GenshinDataFileName := "RoleCombatDifficultyExcelConfigData"

/-- `IsValid` from `file_names.go`: the Go `switch` over the 28 file-name
constants, i.e. a chain of equality tests. -/
def GenshinDataFileName.IsValid (f : GenshinDataFileName) : Bool :=
  f == CharacterDataFile || f == CharacterProfileFile || f == CharacterCostumeFile ||
  f == CharacterSkillDepotFile || f == CharacterSkillFile || f == CharacterTalentFile ||
  f == CharacterConstellationFile || f == CharacterAscensionFile || f == CharacterStatCurveFile ||
  f == CharacterReleaseInfoFile || f == WeaponDataFile || f == WeaponAscensionFile ||
  f == WeaponStatCurveFile || f == WeaponReleaseInfoFile || f == ArtifactSetBonusFile ||
  f == ArtifactDataFile || f == ArtifactMainStatFile || f == ArtifactSubStatFile ||
  f == ArtifactSetDataFile || f == ArtifactRarityDataFile || f == TextMapFile ||
  f == TravelerDataFile || f == ArchonDataFile || f == MaterialDataFile ||
  f == FriendshipRewardFile || f == RewardDataFile || f == ProfilePictureFile ||
  f == TheaterDifficultyFile

/-- `GetGenshinDataFileNames` from `file_names.go`: the compiled-in ordered
enumeration of all data-file identifiers. -/
def GetGenshinDataFileNames : List GenshinDataFileName :=
  [CharacterDataFile, CharacterProfileFile, CharacterCostumeFile,
   CharacterSkillDepotFile, CharacterSkillFile, CharacterTalentFile,
   CharacterConstellationFile, CharacterAscensionFile, CharacterStatCurveFile,
   CharacterReleaseInfoFile, WeaponDataFile, WeaponAscensionFile,
   WeaponStatCurveFile, WeaponReleaseInfoFile, ArtifactSetBonusFile,
   ArtifactDataFile, ArtifactMainStatFile, ArtifactSubStatFile,
   ArtifactSetDataFile, ArtifactRarityDataFile, TextMapFile,
   TravelerDataFile, ArchonDataFile, MaterialDataFile,
   FriendshipRewardFile, RewardDataFile, ProfilePictureFile,
   TheaterDifficultyFile]

set_option maxHeartbeats 2000000 in
/-- C10: the identifier catalog is a closed, compiled-in set: `IsValid f`
holds exactly when `f` is one of the 28 enumerated data-file names, and
`GetGenshinDataFileNames` lists exactly those 28 names, without duplicates. -/
theorem catalog_closed_complete :
    (∀ f : GenshinDataFileName, f.IsValid = true ↔ f ∈ GetGenshinDataFileNames) ∧
    GetGenshinDataFileNames.length = 28 ∧ GetGenshinDataFileNames.Nodup := by
  refine ⟨fun f => ?_, by rfl, by decide⟩
  simp only [GenshinDataFileName.IsValid, GetGenshinDataFileNames,
    Bool.or_eq_true, beq_iff_eq, List.mem_cons, List.not_mem_nil, or_false]
  tauto

/-! ## Resource fetcher (`src/data/loader.go`) -/

def GitlabUrl : String := "https://gitlab.com/Dimbreath/AnimeGameData/-/tree/master/"
def LanguageMapFilesUrl : String :=
  "https://gitlab.com/Dimbreath/AnimeGameData/-/raw/master/TextMap/"
def GenshinDataFilesUrl : String :=
  "https://gitlab.com/Dimbreath/AnimeGameData/-/raw/master/ExcelBinOutput/"

/-- URL built inside the `LoadLangFiles` goroutine:
`fmt.Sprintf("%sTextMap%s.json?ref_type=heads&inline=false", LanguageMapFilesUrl,
strings.ToUpper(string(lang)))`. -/
def langFileUrl (lang : String) : String :=
  LanguageMapFilesUrl ++ "TextMap" ++ lang.toUpper ++ ".json?ref_type=heads&inline=false"

/-- `getDataFileUrl` from `loader.go`. -/
def getDataFileUrl (file : GenshinDataFileName) : String :=
  GenshinDataFilesUrl ++ file ++ ".json?ref_type=heads&inline=false"

/-- An HTTP response as seen by `loadFileFromUrl`: its body, whether
`io.ReadAll` succeeds on it, and whether `Body.Close()` succeeds. -/
structure HttpResp where
  body : Bytes
  readOk : Bool
  closeOk : Bool
deriving DecidableEq

/-- `loadFileFromUrl` from `loader.go`. `reqOk` models whether
`http.NewRequest` succeeds, `doRes` the outcome of `client.Do` (`none` =
transport error). Returns the Go `([]byte, error)` pair as an `Except`,
paired with a flag recording whether the response body was closed before
returning. The deferred `Body.Close()` runs on every path after a response
is obtained; its own error is only printed, never returned. -/
def loadFileFromUrl (reqOk : Bool) (doRes : Option HttpResp) :
    Except String Bytes × Bool :=
  if reqOk = false then (.error "failed to create request", false)
  else
    match doRes with
    | none => (.error "error downloading data file", false)
    | some r =>
      if r.readOk = false then (.error "error reading lang file", true)
      else (.ok r.body, true)

/-- C9: on every exit path of `loadFileFromUrl` on which an HTTP response
was obtained (`client.Do` returned a response), the body is closed before
the function returns — including the path where reading the body fails —
and the success/failure of `Body.Close()` itself never changes the returned
value. -/
theorem loadFileFromUrl_closes_body (reqOk : Bool) (r : HttpResp) (b : Bool)
    (hreq : reqOk = true) :
    (loadFileFromUrl reqOk (some r)).2 = true ∧
    (loadFileFromUrl reqOk (some { r with closeOk := b })).1 =
      (loadFileFromUrl reqOk (some r)).1 := by
  subst hreq
  cases hr : r.readOk <;> simp [loadFileFromUrl, hr]

/-- Witness for C9 at a concrete response whose read fails and whose close
also fails: the body is still closed and the returned value is the same as
with a close that succeeds. -/
theorem loadFileFromUrl_closes_body_witness :
    (loadFileFromUrl true (some ⟨[7], false, false⟩)).2 = true ∧
    (loadFileFromUrl true (some ⟨[7], false, true⟩)).1 =
      (loadFileFromUrl true (some ⟨[7], false, false⟩)).1 :=
  loadFileFromUrl_closes_body true ⟨[7], false, false⟩ true rfl

/-! ## Batch orchestrator: the concurrent fetch phase

`LoadLangFiles` / `LoadDataFiles` allocate `result := make([][]byte, n)` and
`errs := make([]error, n)` and spawn one goroutine per index; goroutine
`idx` fetches its URL and stores the outcome into slot `idx` of both
arrays. We collapse the two arrays into one slot list of
`Option (Except String Bytes)` (`none` = slot not yet written) and make the
completion order an explicit list `σ` of task indices; the second component
logs, in completion order, the URLs for which a network request was
issued. -/

def runFetchTasks (fetch : String → Except String Bytes) (urls : List String)
    (σ : List Nat) : List (Option (Except String Bytes)) × List String :=
  (σ.foldl (fun slots idx => slots.set idx (some (fetch (urls.getD idx ""))))
      (List.replicate urls.length none),
   σ.map fun idx => urls.getD idx "")

/-- Generic slot lemma: folding `set idx (g idx)` over a list of indices
leaves slot `i` at `g i` when `i` occurs in the list, untouched otherwise. -/
theorem foldl_set_get? {α : Type} (g : Nat → α) (σ : List Nat)
    (init : List α) (i : Nat) :
    (σ.foldl (fun s idx => s.set idx (g idx)) init).get? i =
      if i ∈ σ then (if i < init.length then some (g i) else none)
      else init.get? i := by
  induction σ generalizing init with
  | nil => simp
  | cons a σ ih =>
    simp only [List.foldl_cons, ih, List.length_set, List.mem_cons]
    by_cases hi : i ∈ σ
    · simp [hi]
    · by_cases ha : i = a
      · subst ha
        by_cases hlt : i < init.length
        · simp [hi, hlt, List.get?_eq_getElem?, List.getElem?_set_self hlt]
        · simp [hi, hlt, List.get?_eq_getElem?, List.getElem?_set]
      · simp [hi, ha, List.get?_eq_getElem?, List.getElem?_set_ne (Ne.symm ha)]

theorem foldl_set_length {α : Type} (g : Nat → α) (σ : List Nat)
    (init : List α) :
    (σ.foldl (fun s idx => s.set idx (g idx)) init).length = init.length := by
  induction σ generalizing init with
  | nil => rfl
  | cons a σ ih => simp [ih]

/-- The slots of the fetch phase: slot `i` holds exactly the outcome of
fetching `urls[i]` once every task in `σ` has completed. -/
theorem runFetchTasks_get? (fetch : String → Except String Bytes)
    (urls : List String) (σ : List Nat) (i : Nat)
    (hperm : σ.Perm (List.range urls.length)) (hi : i < urls.length) :
    (runFetchTasks fetch urls σ).1.get? i = some (some (fetch (urls.getD i ""))) := by
  have hmem : i ∈ σ := (hperm.mem_iff).2 (List.mem_range.2 hi)
  have h := foldl_set_get? (fun idx => some (fetch (urls.getD idx ""))) σ
    (List.replicate urls.length none) i
  simp only [List.length_replicate, hmem, hi, if_true] at h
  simpa [runFetchTasks] using h

theorem runFetchTasks_length (fetch : String → Except String Bytes)
    (urls : List String) (σ : List Nat) :
    (runFetchTasks fetch urls σ).1.length = urls.length := by
  simp [runFetchTasks, foldl_set_length]

/-- C1: for a batch of `N` identifiers the joined result sequence has
length `N`; slot `i` holds exactly the outcome (bytes or error) of fetching
the URL of `identifiers[i]`, for every completion order of the concurrent
tasks; and each slot is written by exactly one task (task `i` itself). -/
theorem fetch_results_positional (fetch : String → Except String Bytes)
    (urlOf : String → String) (ids : List String) (σ : List Nat)
    (hperm : σ.Perm (List.range ids.length)) :
    (runFetchTasks fetch (ids.map urlOf) σ).1.length = ids.length ∧
    (∀ i, i < ids.length →
      (runFetchTasks fetch (ids.map urlOf) σ).1.get? i =
        some (some (fetch (urlOf (ids.getD i ""))))) ∧
    (∀ i, i < ids.length → σ.count i = 1) := by
  refine ⟨by simp [runFetchTasks_length], fun i hi => ?_, fun i hi => ?_⟩
  · have h := runFetchTasks_get? fetch (ids.map urlOf) σ i
      (by simpa using hperm) (by simpa using hi)
    rw [h]
    congr 2
    rw [List.getD_eq_getElem?_getD, List.getD_eq_getElem?_getD,
      List.getElem?_map, List.getElem?_eq_getElem hi]
    rfl
  · rw [hperm.count_eq]
    exact List.count_eq_one_of_mem (List.nodup_range _) (List.mem_range.2 hi)

/-- Witness for C1 on a two-element batch completing in reversed order. -/
theorem fetch_results_positional_witness :
    (runFetchTasks (fun u => .ok [u.length]) (["en", "fr"].map (· ++ "!")) [1, 0]).1.length = 2 ∧
    (∀ i, i < 2 →
      (runFetchTasks (fun u => .ok [u.length]) (["en", "fr"].map (· ++ "!")) [1, 0]).1.get? i =
        some (some (.ok [(["en", "fr"].getD i "" ++ "!").length]))) ∧
    (∀ i, i < 2 → List.count i [1, 0] = 1) :=
  fetch_results_positional (fun u => .ok [u.length]) (· ++ "!") ["en", "fr"] [1, 0]
    (by decide)

/-! ## Persistence layer (`src/data/file_manager.go`)

The authoritative `file_manager.go` is the version whose `FileManager`
exposes `saveFiles`, `SaveDataFiles` and `LoadFile` (the one with the
JSON-validation gate): `loader.go` calls `fm.SaveDataFiles` and
`fm.LoadFile`, which only that version defines.

The filesystem is a state: a set of existing directories plus a map from
path to file content, modelled as a cons-list where a write prepends and a
read takes the most recent entry (so rewriting a path overwrites). -/

structure FS where
  dirs : List String
  files : List (String × Bytes)
deriving DecidableEq

/-- Go map / filesystem read: most recent binding for the key, if any. -/
def mapGet {β : Type} (m : List (String × β)) (k : String) : Option β :=
  match m with
  | [] => none
  | (k1, v) :: rest => if k = k1 then some v else mapGet rest k

/-- `filepath.Join(dir, name)`. -/
def joinPath (dir name : String) : String := dir ++ "/" ++ name

/-- `validatePath` from `file_manager.go`: `os.Stat`, and on
`os.IsNotExist` either `os.MkdirAll` (when `createIfNotExists`) or the stat
error. `mkdirOk` models whether `os.MkdirAll` succeeds. Returns the updated
directory set or an error. -/
def validatePath (fs : FS) (path : String) (createIfNotExists : Bool)
    (mkdirOk : Bool) : Except String FS :=
  if path ∈ fs.dirs then .ok fs
  else if createIfNotExists then
    if mkdirOk then .ok { fs with dirs := path :: fs.dirs }
    else .error "mkdir failed"
  else .error "stat: no such file or directory"

/-- The mutable state shared by the goroutines of one `saveFiles` call:
the filesystem, the `filePaths` map and the mutex-guarded `saveErr`
variable. -/
structure SaveSt where
  fs : FS
  filePaths : List (String × String)
  saveErr : Option String
deriving DecidableEq

/-- The body of one `saveFiles` goroutine (index `i`): validate
`data[i]` with `isValidJSON`; on failure record the malformed-payload error
and return without writing; otherwise `os.WriteFile` (success given by
`writeOk i`), recording an I/O error on failure, else record
`filePaths[name] = filePath`. -/
def saveTask (isValidJSON : Bytes → Bool) (writeOk : Nat → Bool)
    (path : String) (names : List String) (data : List Bytes)
    (st : SaveSt) (i : Nat) : SaveSt :=
  let name := names.getD i ""
  let d := data.getD i []
  let filePath := joinPath path (name ++ ".json")
  match isValidJSON d with
  | false => { st with saveErr := some ("invalid JSON data for file: " ++ name) }
  | true =>
    match writeOk i with
    | false => { st with saveErr := some "failed to save file" }
    | true =>
      { st with
        fs := { st.fs with files := (filePath, d) :: st.fs.files },
        filePaths := (name, filePath) :: st.filePaths }

/-- `saveFiles` from `file_manager.go`: ensure the directory exists, spawn
one goroutine per item (running to completion in the order `σ`), join, and
return `(nil, saveErr)` if any goroutine recorded an error, else
`(filePaths, nil)` — as the Go pair `(map, error)` — together with the
final filesystem. -/
def saveFiles (isValidJSON : Bytes → Bool) (mkdirOk : Bool)
    (writeOk : Nat → Bool) (fs : FS) (path : String) (names : List String)
    (data : List Bytes) (σ : List Nat) :
    (Option (List (String × String)) × Option String) × FS :=
  match validatePath fs path true mkdirOk with
  | .error e => ((none, some ("failed to create directory: " ++ e)), fs)
  | .ok fs1 =>
    let st := σ.foldl (saveTask isValidJSON writeOk path names data)
      ⟨fs1, [], none⟩
    match st.saveErr with
    | some e => ((none, some e), st.fs)
    | none => ((some st.filePaths, none), st.fs)

/-- `SaveLangFiles` from `file_manager.go`: converts the languages to
strings, delegates to `saveFiles` on the `langs` directory, and converts
the returned map back (an identity on our model). -/
def SaveLangFiles (isValidJSON : Bytes → Bool) (mkdirOk : Bool)
    (writeOk : Nat → Bool) (langPath : String) (fs : FS)
    (langs : List String) (data : List Bytes) (σ : List Nat) :
    (Option (List (String × String)) × Option String) × FS :=
  saveFiles isValidJSON mkdirOk writeOk fs langPath langs data σ

/-- `SaveDataFiles` from `file_manager.go`: same shape on the `data`
directory. -/
def SaveDataFiles (isValidJSON : Bytes → Bool) (mkdirOk : Bool)
    (writeOk : Nat → Bool) (dataPath : String) (fs : FS)
    (fileNames : List GenshinDataFileName) (data : List Bytes) (σ : List Nat) :
    (Option (List (String × String)) × Option String) × FS :=
  saveFiles isValidJSON mkdirOk writeOk fs dataPath fileNames data σ

/-! ## Batch orchestrators (`LoadLangFiles` / `LoadDataFiles`) -/

/-- The post-join error scan `for i, err := range errs`: index and message
of the first error, in identifier order. -/
def firstErr : List (Except String Bytes) → Option (Nat × String)
  | [] => none
  | .error e :: _ => some (0, e)
  | .ok _ :: rest => (firstErr rest).map fun p => (p.1 + 1, p.2)

/-- The joined `errs`/`result` arrays as a list of `Except` outcomes
(slots are all filled once `σ` covers the index range). -/
def joinedOutcomes (fetch : String → Except String Bytes)
    (urls : List String) (σ : List Nat) : List (Except String Bytes) :=
  (runFetchTasks fetch urls σ).1.map (fun o => o.getD (.ok []))

/-- `LoadLangFiles` from `loader.go`: concurrent fetch of every language's
text map, join, error scan in identifier order, then `SaveLangFiles`.
Returns the Go `error` (`none` = nil), the final filesystem, and the log of
the URLs that were requested over the network. -/
def LoadLangFiles (fetch : String → Except String Bytes)
    (isValidJSON : Bytes → Bool) (mkdirOk : Bool) (writeOk : Nat → Bool)
    (langPath : String) (fs : FS) (langs : List String) (σf σs : List Nat) :
    Option String × FS × List String :=
  let urls := langs.map langFileUrl
  let outcomes := joinedOutcomes fetch urls σf
  let reqs := (runFetchTasks fetch urls σf).2
  match firstErr outcomes with
  | some (i, e) =>
    (some ("failed to load lang file " ++ langs.getD i "" ++ ": " ++ e), fs, reqs)
  | none =>
    let result := outcomes.map fun o => o.toOption.getD []
    match SaveLangFiles isValidJSON mkdirOk writeOk langPath fs langs result σs with
    | ((_, some e), fs1) => (some ("failed to save lang files: " ++ e), fs1, reqs)
    | ((_, none), fs1) => (none, fs1, reqs)

/-- `LoadDataFiles` from `loader.go`: identical pipeline over
`getDataFileUrl` and `SaveDataFiles`. Note: no catalog-membership check is
performed before fetching. -/
def LoadDataFiles (fetch : String → Except String Bytes)
    (isValidJSON : Bytes → Bool) (mkdirOk : Bool) (writeOk : Nat → Bool)
    (dataPath : String) (fs : FS) (dataFiles : List GenshinDataFileName)
    (σf σs : List Nat) : Option String × FS × List String :=
  let urls := dataFiles.map getDataFileUrl
  let outcomes := joinedOutcomes fetch urls σf
  let reqs := (runFetchTasks fetch urls σf).2
  match firstErr outcomes with
  | some (i, e) =>
    (some ("failed to load data file " ++ dataFiles.getD i "" ++ ": " ++ e), fs, reqs)
  | none =>
    let result := outcomes.map fun o => o.toOption.getD []
    match SaveDataFiles isValidJSON mkdirOk writeOk dataPath fs dataFiles result σs with
    | ((_, some e), fs1) => (some ("failed to save data files: " ++ e), fs1, reqs)
    | ((_, none), fs1) => (none, fs1, reqs)

/-! ## Characterizing the `saveFiles` fold -/

/-- Task `i` of a `saveFiles` call runs to completion without recording an
error: its payload validates and its write succeeds. -/
def taskOk (isValidJSON : Bytes → Bool) (writeOk : Nat → Bool)
    (data : List Bytes) (i : Nat) : Bool :=
  isValidJSON (data.getD i []) && writeOk i

/-- The path `filepath.Join(path, fmt.Sprintf("%s.json", names[i]))` that
task `i` writes to. -/
def itemPath (path : String) (names : List String) (i : Nat) : String :=
  joinPath path (names.getD i "" ++ ".json")

/-- The error message task `i` records when it fails. -/
def taskErrMsg (isValidJSON : Bytes → Bool) (names : List String)
    (data : List Bytes) (i : Nat) : String :=
  match isValidJSON (data.getD i []) with
  | false => "invalid JSON data for file: " ++ names.getD i ""
  | true => "failed to save file"

/-- The index of the last task in completion order `σ` that fails: the
task whose error message survives the last-writer-wins updates of the
mutex-guarded `saveErr`. -/
def lastFailing (ok : Nat → Bool) : List Nat → Option Nat
  | [] => none
  | a :: σ =>
    match lastFailing ok σ with
    | some j => some j
    | none => match ok a with
      | true => none
      | false => some a

/-- Full characterization of running the `saveFiles` goroutines to
completion in order `σ` from state `st`: directories are untouched, the
disk and the `filePaths` map accumulate exactly the successful tasks (most
recent first), and `saveErr` holds the message of the last failing task in
`σ`, if any. -/
theorem foldl_saveTask_char (v : Bytes → Bool) (w : Nat → Bool)
    (path : String) (names : List String) (data : List Bytes)
    (σ : List Nat) (st : SaveSt) :
    (σ.foldl (saveTask v w path names data) st).fs.dirs = st.fs.dirs ∧
    (σ.foldl (saveTask v w path names data) st).fs.files =
      ((σ.filter (taskOk v w data)).reverse.map
        fun i => (itemPath path names i, data.getD i [])) ++ st.fs.files ∧
    (σ.foldl (saveTask v w path names data) st).filePaths =
      ((σ.filter (taskOk v w data)).reverse.map
        fun i => (names.getD i "", itemPath path names i)) ++ st.filePaths ∧
    (σ.foldl (saveTask v w path names data) st).saveErr =
      (match lastFailing (taskOk v w data) σ with
       | some j => some (taskErrMsg v names data j)
       | none => st.saveErr) := by
  induction σ generalizing st with
  | nil => simp [lastFailing]
  | cons a σ ih =>
    rw [List.foldl_cons]
    cases hok : taskOk v w data a with
    | true =>
      have hv : v (data.getD a []) = true := by
        have h' := hok
        simp only [taskOk, Bool.and_eq_true] at h'
        exact h'.1
      have hw : w a = true := by
        have h' := hok
        simp only [taskOk, Bool.and_eq_true] at h'
        exact h'.2
      have hstep : saveTask v w path names data st a =
          { st with
            fs := { st.fs with
              files := (itemPath path names a, data.getD a []) :: st.fs.files },
            filePaths := (names.getD a "", itemPath path names a) :: st.filePaths } := by
        simp only [saveTask, itemPath, joinPath, hv, hw]
      rw [hstep]
      obtain ⟨h1, h2, h3, h4⟩ := ih ({ st with
        fs := { st.fs with
          files := (itemPath path names a, data.getD a []) :: st.fs.files },
        filePaths := (names.getD a "", itemPath path names a) :: st.filePaths })
      refine ⟨by simpa using h1, ?_, ?_, ?_⟩
      · rw [h2]; simp [List.filter_cons, hok]
      · rw [h3]; simp [List.filter_cons, hok]
      · rw [h4]
        cases hlast : lastFailing (taskOk v w data) σ <;>
          simp [lastFailing, hok, hlast]
    | false =>
      have hstep : saveTask v w path names data st a =
          { st with saveErr := some (taskErrMsg v names data a) } := by
        cases hv : v (data.getD a []) with
        | false => simp only [saveTask, taskErrMsg, hv]
        | true =>
          have hw : w a = false := by
            have h' := hok
            simp only [taskOk, hv, Bool.true_and] at h'
            exact h'
          simp only [saveTask, taskErrMsg, hv, hw]
      rw [hstep]
      obtain ⟨h1, h2, h3, h4⟩ :=
        ih ({ st with saveErr := some (taskErrMsg v names data a) })
      refine ⟨by simpa using h1, ?_, ?_, ?_⟩
      · rw [h2]; simp [List.filter_cons, hok]
      · rw [h3]; simp [List.filter_cons, hok]
      · rw [h4]
        cases hlast : lastFailing (taskOk v w data) σ <;>
          simp [lastFailing, hok, hlast]

/-! ## Lookup and injectivity helpers -/

theorem mapGet_map_append_eq {β : Type} (l : List Nat) (key : Nat → String)
    (val : Nat → β) (rest : List (String × β)) (j : Nat) (hj : j ∈ l)
    (huniq : ∀ k ∈ l, key k = key j → k = j) :
    mapGet ((l.map fun i => (key i, val i)) ++ rest) (key j) = some (val j) := by
  induction l with
  | nil => cases hj
  | cons a l ih =>
    simp only [List.map_cons, List.cons_append, mapGet]
    by_cases h : key j = key a
    · have ha : a = j := huniq a (List.mem_cons_self a l) h.symm
      subst ha
      simp [h]
    · rw [if_neg h]
      have hj' : j ∈ l := by
        rcases List.mem_cons.mp hj with rfl | hmem
        · exact absurd rfl h
        · exact hmem
      exact ih hj' fun k hk => huniq k (List.mem_cons_of_mem _ hk)

theorem mapGet_map_append_ne {β : Type} (l : List Nat) (key : Nat → String)
    (val : Nat → β) (rest : List (String × β)) (k : String)
    (hk : ∀ i ∈ l, key i ≠ k) :
    mapGet ((l.map fun i => (key i, val i)) ++ rest) k = mapGet rest k := by
  induction l with
  | nil => simp
  | cons a l ih =>
    simp only [List.map_cons, List.cons_append, mapGet]
    rw [if_neg fun h => hk a (List.mem_cons_self a l) h.symm]
    exact ih fun i hi => hk i (List.mem_cons_of_mem _ hi)

/-- Distinct file names produce distinct `<path>/<name>.json` target
paths. -/
theorem itemPath_inj (path : String) (names : List String) (i j : Nat)
    (hne : names.getD i "" ≠ names.getD j "") :
    itemPath path names i ≠ itemPath path names j := by
  intro h
  apply hne
  have hd := congrArg String.data h
  simp only [itemPath, joinPath, String.data_append] at hd
  have h1 := (List.append_right_inj _).mp hd
  exact String.ext ((List.append_left_inj _).mp h1)

/-- In a duplicate-free name list, distinct in-range indices carry distinct
names. -/
theorem nodup_getD_ne (names : List String) (h : names.Nodup) (i j : Nat)
    (hi : i < names.length) (hj : j < names.length) (hij : i ≠ j) :
    names.getD i "" ≠ names.getD j "" := by
  intro heq
  apply hij
  have h2 : names[i] = names[j] := by
    rwa [List.getD_eq_getElem?_getD, List.getD_eq_getElem?_getD,
      List.getElem?_eq_getElem hi, List.getElem?_eq_getElem hj,
      Option.getD_some, Option.getD_some] at heq
  exact (h.getElem_inj_iff).mp h2

/-- When every task in `σ` succeeds, none is the last failing one. -/
theorem lastFailing_none (ok : Nat → Bool) (σ : List Nat)
    (h : ∀ i ∈ σ, ok i = true) : lastFailing ok σ = none := by
  induction σ with
  | nil => rfl
  | cons a σ ih =>
    simp only [lastFailing, ih fun i hi => h i (List.mem_cons_of_mem _ hi),
      h a (List.mem_cons_self a σ)]

/-- When `j` is the unique failing task occurring in the duplicate-free
order `σ`, the last failing task is `j` — independently of where `j` sits
in `σ`. -/
theorem lastFailing_unique (ok : Nat → Bool) (σ : List Nat) (j : Nat)
    (hnd : σ.Nodup) (hj : j ∈ σ) (hfail : ok j = false)
    (hothers : ∀ i ∈ σ, i ≠ j → ok i = true) :
    lastFailing ok σ = some j := by
  induction σ with
  | nil => cases hj
  | cons a σ ih =>
    rcases List.mem_cons.mp hj with rfl | hmem
    · have hrest : lastFailing ok σ = none :=
        lastFailing_none ok σ fun i hi =>
          hothers i (List.mem_cons_of_mem _ hi)
            (fun h => (List.nodup_cons.mp hnd).1 (h ▸ hi))
      simp [lastFailing, hrest, hfail]
    · have ha : a ≠ j := fun h => (List.nodup_cons.mp hnd).1 (h ▸ hmem)
      have := ih (List.nodup_cons.mp hnd).2 hmem
        fun i hi hij => hothers i (List.mem_cons_of_mem _ hi) hij
      simp [lastFailing, this]

/-- Membership in `σ` for in-range indices when `σ` is a permutation of
the index range. -/
theorem mem_of_perm_range (σ : List Nat) (n i : Nat)
    (hperm : σ.Perm (List.range n)) (hi : i < n) : i ∈ σ :=
  (hperm.mem_iff).2 (List.mem_range.2 hi)

/-- Indices occurring in a permutation of `List.range n` are below `n`. -/
theorem lt_of_mem_perm_range (σ : List Nat) (n i : Nat)
    (hperm : σ.Perm (List.range n)) (hi : i ∈ σ) : i < n :=
  List.mem_range.1 ((hperm.mem_iff).1 hi)

/-! ## `saveFiles`: success-path core -/

theorem validatePath_create_ok (fs : FS) (path : String) (mkOk : Bool)
    (h : path ∈ fs.dirs ∨ mkOk = true) :
    validatePath fs path true mkOk =
      .ok (if path ∈ fs.dirs then fs else { fs with dirs := path :: fs.dirs }) := by
  by_cases hp : path ∈ fs.dirs
  · simp [validatePath, hp]
  · rcases h with h | h
    · exact absurd h hp
    · simp [validatePath, hp, h]

/-- The directory ensured by a `saveFiles` call survives in the final
filesystem (when `os.MkdirAll` cannot fail). -/
theorem saveFiles_dir_exists (v : Bytes → Bool) (w : Nat → Bool) (fs : FS)
    (path : String) (names : List String) (data : List Bytes) (σ : List Nat) :
    path ∈ (saveFiles v true w fs path names data σ).2.dirs := by
  rw [saveFiles, validatePath_create_ok fs path true (Or.inr rfl)]
  obtain ⟨h1, _, _, _⟩ := foldl_saveTask_char v w path names data σ
    ⟨if path ∈ fs.dirs then fs else { fs with dirs := path :: fs.dirs }, [], none⟩
  cases hse : (σ.foldl (saveTask v w path names data)
      ⟨if path ∈ fs.dirs then fs else { fs with dirs := path :: fs.dirs }, [], none⟩).saveErr <;>
    simp only [hse] <;> rw [h1] <;> by_cases hp : path ∈ fs.dirs <;> simp [hp]

/-- Shared success-path lemma: when the directory is available, every
payload validates, every write succeeds and the completion order covers
every index, `saveFiles` returns no error, and both the returned map and
the final disk are fully populated. -/
theorem saveFiles_success_core (v : Bytes → Bool) (mkOk : Bool)
    (w : Nat → Bool) (fs : FS) (path : String) (names : List String)
    (data : List Bytes) (σ : List Nat)
    (hdir : path ∈ fs.dirs ∨ mkOk = true)
    (hnd : names.Nodup)
    (hvalid : ∀ i, i < names.length → v (data.getD i []) = true)
    (hw : ∀ i, i < names.length → w i = true)
    (hperm : σ.Perm (List.range names.length)) :
    (saveFiles v mkOk w fs path names data σ).1.2 = none ∧
    (∃ m, (saveFiles v mkOk w fs path names data σ).1.1 = some m ∧
      ∀ i, i < names.length →
        mapGet m (names.getD i "") = some (itemPath path names i)) ∧
    (∀ i, i < names.length →
      mapGet (saveFiles v mkOk w fs path names data σ).2.files
        (itemPath path names i) = some (data.getD i [])) := by
  have hok : ∀ i ∈ σ, taskOk v w data i = true := by
    intro i hi
    have hilt := lt_of_mem_perm_range σ names.length i hperm hi
    have hv := hvalid i hilt
    have hwi := hw i hilt
    simp only [taskOk, hv, hwi, Bool.and_self]
  have hfil : σ.filter (taskOk v w data) = σ := List.filter_eq_self.mpr hok
  obtain ⟨h1, h2, h3, h4⟩ := foldl_saveTask_char v w path names data σ
    ⟨if path ∈ fs.dirs then fs else { fs with dirs := path :: fs.dirs }, [], none⟩
  rw [hfil] at h2 h3
  have hse : (σ.foldl (saveTask v w path names data)
      ⟨if path ∈ fs.dirs then fs
       else { fs with dirs := path :: fs.dirs }, [], none⟩).saveErr = none := by
    rw [h4, lastFailing_none (taskOk v w data) σ hok]
  have heq : saveFiles v mkOk w fs path names data σ =
      ((some (σ.foldl (saveTask v w path names data)
          ⟨if path ∈ fs.dirs then fs
           else { fs with dirs := path :: fs.dirs }, [], none⟩).filePaths, none),
        (σ.foldl (saveTask v w path names data)
          ⟨if path ∈ fs.dirs then fs
           else { fs with dirs := path :: fs.dirs }, [], none⟩).fs) := by
    rw [saveFiles, validatePath_create_ok fs path mkOk hdir]
    simp only [hse]
  rw [heq]
  have hkey : ∀ j, j < names.length → ∀ k ∈ σ.reverse,
      names.getD k "" = names.getD j "" → k = j := by
    intro j hj k hk hkeq
    have hklt := lt_of_mem_perm_range σ names.length k hperm (List.mem_reverse.mp hk)
    by_contra hne
    exact nodup_getD_ne names hnd k j hklt hj hne hkeq
  refine ⟨rfl, ⟨_, rfl, fun i hi => ?_⟩, fun i hi => ?_⟩
  · rw [h3]
    exact mapGet_map_append_eq σ.reverse (fun k => names.getD k "")
      (fun k => itemPath path names k) _ i
      (List.mem_reverse.mpr (mem_of_perm_range σ names.length i hperm hi))
      (hkey i hi)
  · rw [h2]
    exact mapGet_map_append_eq σ.reverse (fun k => itemPath path names k)
      (fun k => data.getD k []) _ i
      (List.mem_reverse.mpr (mem_of_perm_range σ names.length i hperm hi))
      (fun k hk hkeq => by
        by_contra hne
        have hklt := lt_of_mem_perm_range σ names.length k hperm
          (List.mem_reverse.mp hk)
        exact itemPath_inj path names k i
          (nodup_getD_ne names hnd k i hklt hi hne) hkeq)

/-- C2: if every payload in the batch is well-formed and every disk write
succeeds, the batch save returns (without error) a path mapping with an
entry for every identifier, and the file at each returned path holds
exactly the bytes passed in for that identifier — for every completion
order of the write goroutines. -/
theorem save_roundtrip_identity (isValidJSON : Bytes → Bool)
    (writeOk : Nat → Bool) (fs : FS) (path : String) (names : List String)
    (data : List Bytes) (σ : List Nat)
    (hnd : names.Nodup)
    (hlen : names.length = data.length)
    (hvalid : ∀ i, i < names.length → isValidJSON (data.getD i []) = true)
    (hw : ∀ i, i < names.length → writeOk i = true)
    (hperm : σ.Perm (List.range names.length)) :
    (saveFiles isValidJSON true writeOk fs path names data σ).1.2 = none ∧
    (∃ m, (saveFiles isValidJSON true writeOk fs path names data σ).1.1 = some m ∧
      ∀ i, i < names.length →
        mapGet m (names.getD i "") = some (itemPath path names i)) ∧
    (∀ i, i < names.length →
      mapGet (saveFiles isValidJSON true writeOk fs path names data σ).2.files
        (itemPath path names i) = some (data.getD i [])) :=
  saveFiles_success_core isValidJSON true writeOk fs path names data σ
    (Or.inr rfl) hnd hvalid hw hperm

/-- Witness for C2: a two-item batch whose writes complete in reversed
order still yields a full path map and round-trips both payloads. -/
theorem save_roundtrip_identity_witness :
    (saveFiles (fun _ => true) true (fun _ => true) ⟨[], []⟩ "root/langs"
      ["en", "fr"] [[1], [2]] [1, 0]).1.2 = none ∧
    (∃ m, (saveFiles (fun _ => true) true (fun _ => true) ⟨[], []⟩ "root/langs"
      ["en", "fr"] [[1], [2]] [1, 0]).1.1 = some m ∧
      ∀ i, i < (["en", "fr"] : List String).length →
        mapGet m ((["en", "fr"] : List String).getD i "") =
          some (itemPath "root/langs" ["en", "fr"] i)) ∧
    (∀ i, i < (["en", "fr"] : List String).length →
      mapGet (saveFiles (fun _ => true) true (fun _ => true) ⟨[], []⟩ "root/langs"
        ["en", "fr"] [[1], [2]] [1, 0]).2.files
        (itemPath "root/langs" ["en", "fr"] i) =
          some (([[1], [2]] : List Bytes).getD i [])) :=
  save_roundtrip_identity (fun _ => true) (fun _ => true) ⟨[], []⟩ "root/langs"
    ["en", "fr"] [[1], [2]] [1, 0] (by decide) (by decide)
    (fun i _ => rfl) (fun i _ => rfl) (by decide)

/-- C7: directory creation is idempotent — `validatePath` with
`createIfNotExists = true` never errors when the directory already exists
(regardless of whether `MkdirAll` could fail), so a second batch save over
the same category directory never errors on directory creation, and its
successful writes overwrite the first call's files: after the two calls the
content at every path of the second batch is the second batch's payload. -/
theorem mkdir_idempotent_overwrite (isValidJSON : Bytes → Bool)
    (w1 w2 : Nat → Bool) (mkOk2 : Bool) (fs : FS) (path : String)
    (names1 : List String) (data1 : List Bytes) (σ1 : List Nat)
    (names2 : List String) (data2 : List Bytes) (σ2 : List Nat)
    (hnd2 : names2.Nodup)
    (hvalid2 : ∀ i, i < names2.length → isValidJSON (data2.getD i []) = true)
    (hw2 : ∀ i, i < names2.length → w2 i = true)
    (hperm2 : σ2.Perm (List.range names2.length)) :
    (∀ fs0 : FS, ∀ mkOk : Bool, path ∈ fs0.dirs →
      validatePath fs0 path true mkOk = .ok fs0) ∧
    (saveFiles isValidJSON mkOk2 w2
        (saveFiles isValidJSON true w1 fs path names1 data1 σ1).2
        path names2 data2 σ2).1.2 = none ∧
    (∀ i, i < names2.length →
      mapGet (saveFiles isValidJSON mkOk2 w2
          (saveFiles isValidJSON true w1 fs path names1 data1 σ1).2
          path names2 data2 σ2).2.files
        (itemPath path names2 i) = some (data2.getD i [])) := by
  have hvp : ∀ fs0 : FS, ∀ mkOk : Bool, path ∈ fs0.dirs →
      validatePath fs0 path true mkOk = .ok fs0 := by
    intro fs0 mkOk h0
    simp [validatePath, h0]
  have hdir1 : path ∈ (saveFiles isValidJSON true w1 fs path names1 data1 σ1).2.dirs :=
    saveFiles_dir_exists isValidJSON w1 fs path names1 data1 σ1
  obtain ⟨hc1, _, hc3⟩ := saveFiles_success_core isValidJSON mkOk2 w2
    (saveFiles isValidJSON true w1 fs path names1 data1 σ1).2
    path names2 data2 σ2 (Or.inl hdir1) hnd2 hvalid2 hw2 hperm2
  exact ⟨hvp, hc1, hc3⟩

/-- Witness for C7: saving the same single-item batch twice (with updated
content the second time) into a fresh filesystem errors nowhere and leaves
the second payload on disk. -/
theorem mkdir_idempotent_overwrite_witness :
    (∀ fs0 : FS, ∀ mkOk : Bool, "root/data" ∈ fs0.dirs →
      validatePath fs0 "root/data" true mkOk = .ok fs0) ∧
    (saveFiles (fun _ => true) false (fun _ => true)
        (saveFiles (fun _ => true) true (fun _ => true) ⟨[], []⟩ "root/data"
          ["A"] [[1]] [0]).2
        "root/data" ["A"] [[2]] [0]).1.2 = none ∧
    (∀ i, i < (["A"] : List String).length →
      mapGet (saveFiles (fun _ => true) false (fun _ => true)
          (saveFiles (fun _ => true) true (fun _ => true) ⟨[], []⟩ "root/data"
            ["A"] [[1]] [0]).2
          "root/data" ["A"] [[2]] [0]).2.files
        (itemPath "root/data" ["A"] i) = some (([[2]] : List Bytes).getD i [])) :=
  mkdir_idempotent_overwrite (fun _ => true) (fun _ => true) (fun _ => true)
    false ⟨[], []⟩ "root/data" ["A"] [[1]] [0] ["A"] [[2]] [0]
    (by decide) (fun i _ => rfl) (fun i _ => rfl) (by decide)

theorem validatePath_ok_files (fs : FS) (path : String) (c mkOk : Bool)
    (fs1 : FS) (h : validatePath fs path c mkOk = .ok fs1) :
    fs1.files = fs.files := by
  simp only [validatePath] at h
  split_ifs at h <;>
    first
      | (injection h with h2; rw [← h2])
      | exact Except.noConfusion h

/-- C6: whenever a batch save returns a non-nil error, the returned path
map is nil (the caller never sees a partial map), yet every file written by
a sibling task that validated and wrote successfully remains on disk —
nothing is rolled back. -/
theorem save_error_nil_map_frame (isValidJSON : Bytes → Bool) (mkOk : Bool)
    (writeOk : Nat → Bool) (fs : FS) (path : String) (names : List String)
    (data : List Bytes) (σ : List Nat) (e : String)
    (hnd : names.Nodup)
    (hperm : σ.Perm (List.range names.length))
    (hdir : path ∈ fs.dirs ∨ mkOk = true)
    (herr : (saveFiles isValidJSON mkOk writeOk fs path names data σ).1.2 = some e) :
    (saveFiles isValidJSON mkOk writeOk fs path names data σ).1.1 = none ∧
    (∀ i, i < names.length → isValidJSON (data.getD i []) = true →
      writeOk i = true →
      mapGet (saveFiles isValidJSON mkOk writeOk fs path names data σ).2.files
        (itemPath path names i) = some (data.getD i [])) := by
  obtain ⟨h1, h2, h3, h4⟩ := foldl_saveTask_char isValidJSON writeOk path names data σ
    ⟨if path ∈ fs.dirs then fs else { fs with dirs := path :: fs.dirs }, [], none⟩
  cases hse : (σ.foldl (saveTask isValidJSON writeOk path names data)
      ⟨if path ∈ fs.dirs then fs
       else { fs with dirs := path :: fs.dirs }, [], none⟩).saveErr with
  | none =>
    have hnone : (saveFiles isValidJSON mkOk writeOk fs path names data σ).1.2 = none := by
      rw [saveFiles, validatePath_create_ok fs path mkOk hdir]
      simp only [hse]
    rw [hnone] at herr
    cases herr
  | some e1 =>
    have heq : saveFiles isValidJSON mkOk writeOk fs path names data σ =
        ((none, some e1),
          (σ.foldl (saveTask isValidJSON writeOk path names data)
            ⟨if path ∈ fs.dirs then fs
             else { fs with dirs := path :: fs.dirs }, [], none⟩).fs) := by
      rw [saveFiles, validatePath_create_ok fs path mkOk hdir]
      simp only [hse]
    rw [heq]
    refine ⟨rfl, fun i hi hv hwi => ?_⟩
    have hoki : taskOk isValidJSON writeOk data i = true := by
      simp only [taskOk, hv, hwi, Bool.and_self]
    rw [h2]
    exact mapGet_map_append_eq (σ.filter (taskOk isValidJSON writeOk data)).reverse
      (fun k => itemPath path names k) (fun k => data.getD k []) _ i
      (List.mem_reverse.mpr (List.mem_filter.mpr
        ⟨mem_of_perm_range σ names.length i hperm hi, hoki⟩))
      (fun k hk hkeq => by
        by_contra hne
        have hkσ := (List.mem_filter.mp (List.mem_reverse.mp hk)).1
        have hklt := lt_of_mem_perm_range σ names.length k hperm hkσ
        exact itemPath_inj path names k i
          (nodup_getD_ne names hnd k i hklt hi hne) hkeq)

/-- Witness for C6: a two-item batch where item 0 validates and item 1 is
malformed returns a nil map with the item-1 error, but item 0's file is on
disk with its payload. -/
theorem save_error_nil_map_frame_witness :
    (saveFiles (fun b => decide (b = [1])) true (fun _ => true) ⟨[], []⟩
      "root" ["A", "B"] [[1], [0]] [0, 1]).1.1 = none ∧
    (∀ i, i < (["A", "B"] : List String).length →
      (fun b => decide (b = [1])) (([[1], [0]] : List Bytes).getD i []) = true →
      (fun _ : Nat => true) i = true →
      mapGet (saveFiles (fun b => decide (b = [1])) true (fun _ => true) ⟨[], []⟩
        "root" ["A", "B"] [[1], [0]] [0, 1]).2.files
        (itemPath "root" ["A", "B"] i) =
          some (([[1], [0]] : List Bytes).getD i [])) :=
  save_error_nil_map_frame (fun b => decide (b = [1])) true (fun _ => true)
    ⟨[], []⟩ "root" ["A", "B"] [[1], [0]] [0, 1]
    "invalid JSON data for file: B"
    (by decide) (by decide) (Or.inr rfl) (by decide)

/-- C5 counterexample: the observable outcome of a failing batch save is
NOT independent of goroutine completion order. For the batch
`["A", "B"]` in which both payloads fail validation, the completion order
`[0, 1]` returns the error naming "B" while the order `[1, 0]` returns the
error naming "A" — two executions of the same call with different
outcomes. -/
theorem save_outcome_schedule_dependent :
    [0, 1].Perm (List.range 2) ∧ [1, 0].Perm (List.range 2) ∧
    (saveFiles (fun _ => false) true (fun _ => true) ⟨[], []⟩ "root"
        ["A", "B"] [[0], [0]] [0, 1]).1.2 =
      some "invalid JSON data for file: B" ∧
    (saveFiles (fun _ => false) true (fun _ => true) ⟨[], []⟩ "root"
        ["A", "B"] [[0], [0]] [1, 0]).1.2 =
      some "invalid JSON data for file: A" ∧
    (saveFiles (fun _ => false) true (fun _ => true) ⟨[], []⟩ "root"
        ["A", "B"] [[0], [0]] [0, 1]).1 ≠
      (saveFiles (fun _ => false) true (fun _ => true) ⟨[], []⟩ "root"
        ["A", "B"] [[0], [0]] [1, 0]).1 := by
  exact ⟨by decide, by decide, by decide, by decide, by decide⟩

/-- C5 amended: when **at most one** item of the batch fails (a single
validation failure, all other payloads valid and all writes succeeding),
the outcome is the same for every completion order and matches the
best-effort policy with a nil map: the returned error names exactly the
failing identifier, the returned path map is nil, the failing identifier's
file is absent, and every other identifier's file is on disk with its
payload. -/
theorem save_single_failure_deterministic (isValidJSON : Bytes → Bool)
    (writeOk : Nat → Bool) (fs : FS) (path : String) (names : List String)
    (data : List Bytes) (σ : List Nat) (j : Nat)
    (hnd : names.Nodup)
    (hperm : σ.Perm (List.range names.length))
    (hj : j < names.length)
    (hbad : isValidJSON (data.getD j []) = false)
    (hothers : ∀ i, i < names.length → i ≠ j →
      isValidJSON (data.getD i []) = true)
    (hw : ∀ i, i < names.length → writeOk i = true)
    (hfresh : mapGet fs.files (itemPath path names j) = none) :
    (saveFiles isValidJSON true writeOk fs path names data σ).1.2 =
      some ("invalid JSON data for file: " ++ names.getD j "") ∧
    (saveFiles isValidJSON true writeOk fs path names data σ).1.1 = none ∧
    mapGet (saveFiles isValidJSON true writeOk fs path names data σ).2.files
      (itemPath path names j) = none ∧
    (∀ i, i < names.length → i ≠ j →
      mapGet (saveFiles isValidJSON true writeOk fs path names data σ).2.files
        (itemPath path names i) = some (data.getD i [])) := by
  have hokj : taskOk isValidJSON writeOk data j = false := by
    simp only [taskOk, hbad, Bool.false_and]
  have hoki : ∀ i ∈ σ, i ≠ j → taskOk isValidJSON writeOk data i = true := by
    intro i hi hij
    have hilt := lt_of_mem_perm_range σ names.length i hperm hi
    simp only [taskOk, hothers i hilt hij, hw i hilt, Bool.and_self]
  obtain ⟨h1, h2, h3, h4⟩ := foldl_saveTask_char isValidJSON writeOk path names data σ
    ⟨if path ∈ fs.dirs then fs else { fs with dirs := path :: fs.dirs }, [], none⟩
  have hlast : lastFailing (taskOk isValidJSON writeOk data) σ = some j :=
    lastFailing_unique (taskOk isValidJSON writeOk data) σ j
      (hperm.nodup_iff.mpr (List.nodup_range _))
      (mem_of_perm_range σ names.length j hperm hj) hokj hoki
  have hmsg : taskErrMsg isValidJSON names data j =
      "invalid JSON data for file: " ++ names.getD j "" := by
    simp only [taskErrMsg, hbad]
  have hse : (σ.foldl (saveTask isValidJSON writeOk path names data)
      ⟨if path ∈ fs.dirs then fs
       else { fs with dirs := path :: fs.dirs }, [], none⟩).saveErr =
      some ("invalid JSON data for file: " ++ names.getD j "") := by
    rw [h4, hlast]
    simp only [hmsg]
  have heq : saveFiles isValidJSON true writeOk fs path names data σ =
      ((none, some ("invalid JSON data for file: " ++ names.getD j "")),
        (σ.foldl (saveTask isValidJSON writeOk path names data)
          ⟨if path ∈ fs.dirs then fs
           else { fs with dirs := path :: fs.dirs }, [], none⟩).fs) := by
    rw [saveFiles, validatePath_create_ok fs path true (Or.inr rfl)]
    simp only [hse]
  have hfs1files : (if path ∈ fs.dirs then fs
      else { fs with dirs := path :: fs.dirs }).files = fs.files := by
    by_cases hp : path ∈ fs.dirs <;> simp [hp]
  rw [heq]
  refine ⟨rfl, rfl, ?_, fun i hi hij => ?_⟩
  · rw [h2]
    rw [mapGet_map_append_ne (σ.filter (taskOk isValidJSON writeOk data)).reverse
      (fun k => itemPath path names k) (fun k => data.getD k []) _ _
      (fun k hk => by
        have hkmem := List.mem_filter.mp (List.mem_reverse.mp hk)
        have hklt := lt_of_mem_perm_range σ names.length k hperm hkmem.1
        have hkj : k ≠ j := fun h => by
          rw [h] at hkmem
          rw [hokj] at hkmem
          cases hkmem.2
        exact itemPath_inj path names k j
          (nodup_getD_ne names hnd k j hklt hj hkj))]
    rw [hfs1files]
    exact hfresh
  · have hoki2 : taskOk isValidJSON writeOk data i = true :=
      hoki i (mem_of_perm_range σ names.length i hperm hi) hij
    rw [h2]
    exact mapGet_map_append_eq (σ.filter (taskOk isValidJSON writeOk data)).reverse
      (fun k => itemPath path names k) (fun k => data.getD k []) _ i
      (List.mem_reverse.mpr (List.mem_filter.mpr
        ⟨mem_of_perm_range σ names.length i hperm hi, hoki2⟩))
      (fun k hk hkeq => by
        by_contra hne
        have hkσ := (List.mem_filter.mp (List.mem_reverse.mp hk)).1
        have hklt := lt_of_mem_perm_range σ names.length k hperm hkσ
        exact itemPath_inj path names k i
          (nodup_getD_ne names hnd k i hklt hi hne) hkeq)

/-- Witness for the amended C5 at the spec's own scenario: identifiers
`["A", "B"]`, payload A valid, payload B malformed, run in completion order
`[1, 0]`: the error names exactly "B", the map is nil, B's file is absent
and A's file is on disk. -/
theorem save_single_failure_deterministic_witness :
    (saveFiles (fun b => decide (b = [1])) true (fun _ => true) ⟨[], []⟩
      "root" ["A", "B"] [[1], [0]] [1, 0]).1.2 =
        some ("invalid JSON data for file: " ++ (["A", "B"] : List String).getD 1 "") ∧
    (saveFiles (fun b => decide (b = [1])) true (fun _ => true) ⟨[], []⟩
      "root" ["A", "B"] [[1], [0]] [1, 0]).1.1 = none ∧
    mapGet (saveFiles (fun b => decide (b = [1])) true (fun _ => true) ⟨[], []⟩
      "root" ["A", "B"] [[1], [0]] [1, 0]).2.files
      (itemPath "root" ["A", "B"] 1) = none ∧
    (∀ i, i < (["A", "B"] : List String).length → i ≠ 1 →
      mapGet (saveFiles (fun b => decide (b = [1])) true (fun _ => true) ⟨[], []⟩
        "root" ["A", "B"] [[1], [0]] [1, 0]).2.files
        (itemPath "root" ["A", "B"] i) =
          some (([[1], [0]] : List Bytes).getD i [])) :=
  save_single_failure_deterministic (fun b => decide (b = [1])) (fun _ => true)
    ⟨[], []⟩ "root" ["A", "B"] [[1], [0]] [1, 0] 1
    (by decide) (by decide) (by decide) (by decide)
    (by decide) (fun i _ => rfl) rfl

/-- C4: every per-item write task first validates its payload with
`isValidJSON`: on failure it records the malformed-payload error naming its
identifier and performs no write; on success it writes the payload verbatim
to `<path>/<name>.json` and records the path. Consequently a batch save
never places bytes that fail validation on disk: every entry of the final
filesystem is either pre-existing or validated. -/
theorem save_validation_gate (isValidJSON : Bytes → Bool)
    (writeOk : Nat → Bool) (path : String) (names : List String)
    (data : List Bytes) (st : SaveSt) (i : Nat) (mkOk : Bool) (fs : FS)
    (σ : List Nat) (p : String) (b : Bytes) :
    (isValidJSON (data.getD i []) = false →
      saveTask isValidJSON writeOk path names data st i =
        { st with
          saveErr := some ("invalid JSON data for file: " ++ names.getD i "") }) ∧
    (isValidJSON (data.getD i []) = true → writeOk i = true →
      saveTask isValidJSON writeOk path names data st i =
        { st with
          fs := { st.fs with
            files := (itemPath path names i, data.getD i []) :: st.fs.files },
          filePaths := (names.getD i "", itemPath path names i) :: st.filePaths }) ∧
    ((p, b) ∈ (saveFiles isValidJSON mkOk writeOk fs path names data σ).2.files →
      (p, b) ∈ fs.files ∨ isValidJSON b = true) := by
  refine ⟨fun hbad => ?_, fun hv hwi => ?_, fun hmem => ?_⟩
  · simp only [saveTask, hbad]
  · simp only [saveTask, itemPath, joinPath, hv, hwi]
  · cases hvp : validatePath fs path true mkOk with
    | error e =>
      simp only [saveFiles, hvp] at hmem
      exact Or.inl hmem
    | ok fs1 =>
      have hfls : fs1.files = fs.files :=
        validatePath_ok_files fs path true mkOk fs1 hvp
      obtain ⟨_, h2, _, _⟩ := foldl_saveTask_char isValidJSON writeOk path names
        data σ ⟨fs1, [], none⟩
      simp only [saveFiles, hvp] at hmem
      cases hse : (σ.foldl (saveTask isValidJSON writeOk path names data)
          ⟨fs1, [], none⟩).saveErr with
      | some e1 =>
        simp only [hse] at hmem
        rw [h2] at hmem
        rcases List.mem_append.mp hmem with hm | hm
        · obtain ⟨k, hk, hpair⟩ := List.mem_map.mp hm
          have hokk := (List.mem_filter.mp (List.mem_reverse.mp hk)).2
          have hvk : isValidJSON (data.getD k []) = true := by
            simp only [taskOk, Bool.and_eq_true] at hokk
            exact hokk.1
          cases hpair
          exact Or.inr hvk
        · rw [hfls] at hm
          exact Or.inl hm
      | none =>
        simp only [hse] at hmem
        rw [h2] at hmem
        rcases List.mem_append.mp hmem with hm | hm
        · obtain ⟨k, hk, hpair⟩ := List.mem_map.mp hm
          have hokk := (List.mem_filter.mp (List.mem_reverse.mp hk)).2
          have hvk : isValidJSON (data.getD k []) = true := by
            simp only [taskOk, Bool.and_eq_true] at hokk
            exact hokk.1
          cases hpair
          exact Or.inr hvk
        · rw [hfls] at hm
          exact Or.inl hm

/-- Witness for C4: a malformed single-byte payload makes its task record
its error without writing; a well-formed one is written verbatim; and an
entry found on the disk produced by a batch save from an empty filesystem
is validated. -/
theorem save_validation_gate_witness :
    saveTask (fun b => decide (b = [1])) (fun _ => true) "d" ["A"] [[0]]
        ⟨⟨[], []⟩, [], none⟩ 0 =
      { (⟨⟨[], []⟩, [], none⟩ : SaveSt) with
        saveErr := some ("invalid JSON data for file: " ++ (["A"] : List String).getD 0 "") } ∧
    saveTask (fun b => decide (b = [1])) (fun _ => true) "d" ["A"] [[1]]
        ⟨⟨[], []⟩, [], none⟩ 0 =
      { (⟨⟨[], []⟩, [], none⟩ : SaveSt) with
        fs := { (⟨[], []⟩ : FS) with
          files := (itemPath "d" ["A"] 0, ([[1]] : List Bytes).getD 0 []) :: [] },
        filePaths := ((["A"] : List String).getD 0 "", itemPath "d" ["A"] 0) :: [] } ∧
    ((itemPath "d" ["A"] 0, ([1] : Bytes)) ∈ (⟨[], []⟩ : FS).files ∨
      (fun b => decide (b = [1])) [1] = true) :=
  ⟨(save_validation_gate (fun b => decide (b = [1])) (fun _ => true) "d" ["A"]
      [[0]] ⟨⟨[], []⟩, [], none⟩ 0 true ⟨[], []⟩ [0] "" []).1 (by decide),
   (save_validation_gate (fun b => decide (b = [1])) (fun _ => true) "d" ["A"]
      [[1]] ⟨⟨[], []⟩, [], none⟩ 0 true ⟨[], []⟩ [0] "" []).2.1 (by decide) rfl,
   (save_validation_gate (fun b => decide (b = [1])) (fun _ => true) "d" ["A"]
      [[1]] ⟨⟨[], []⟩, [], none⟩ 0 true ⟨[], []⟩ [0] (itemPath "d" ["A"] 0)
      [1]).2.2 (by decide)⟩

/-! ## The post-join error scan of the loaders -/

theorem firstErr_spec (L : List (Except String Bytes)) (j : Nat) (e : String)
    (hj : L.get? j = some (.error e))
    (hfirst : ∀ k, k < j → ∃ b, L.get? k = some (.ok b)) :
    firstErr L = some (j, e) := by
  induction L generalizing j with
  | nil => simp at hj
  | cons hd tl ih =>
    cases j with
    | zero =>
      simp only [List.get?_cons_zero, Option.some.injEq] at hj
      rw [hj]
      rfl
    | succ j =>
      obtain ⟨b, hb⟩ := hfirst 0 (Nat.succ_pos j)
      simp only [List.get?_cons_zero, Option.some.injEq] at hb
      rw [hb]
      simp only [firstErr]
      rw [ih j (by simpa using hj)
        (fun k hk => by
          have := hfirst (k + 1) (Nat.succ_lt_succ hk)
          simpa using this)]
      rfl

theorem joinedOutcomes_get? (fetch : String → Except String Bytes)
    (urls : List String) (σ : List Nat) (i : Nat)
    (hperm : σ.Perm (List.range urls.length)) (hi : i < urls.length) :
    (joinedOutcomes fetch urls σ).get? i = some (fetch (urls.getD i "")) := by
  rw [joinedOutcomes, List.get?_map, runFetchTasks_get? fetch urls σ i hperm hi]
  rfl

theorem getD_map_str (f : String → String) (l : List String) (j : Nat)
    (hj : j < l.length) : (l.map f).getD j "" = f (l.getD j "") := by
  rw [List.getD_eq_getElem?_getD, List.getD_eq_getElem?_getD,
    List.getElem?_map, List.getElem?_eq_getElem hj]
  rfl

theorem firstErr_joined (fetch : String → Except String Bytes)
    (urls : List String) (σ : List Nat) (j : Nat) (e : String)
    (hperm : σ.Perm (List.range urls.length)) (hj : j < urls.length)
    (hje : fetch (urls.getD j "") = .error e)
    (hfirst : ∀ k, k < j → ∃ b, fetch (urls.getD k "") = .ok b) :
    firstErr (joinedOutcomes fetch urls σ) = some (j, e) := by
  apply firstErr_spec
  · rw [joinedOutcomes_get? fetch urls σ j hperm hj, hje]
  · intro k hk
    obtain ⟨b, hb⟩ := hfirst k hk
    exact ⟨b, by
      rw [joinedOutcomes_get? fetch urls σ k hperm (Nat.lt_trans hk hj), hb]⟩

/-- C3: after the join barrier the batch fetch scans the per-item outcomes
in identifier order; if any item failed it returns the first error in that
order, wrapped with that identifier's name, and the filesystem is
completely untouched — no payload from the batch reaches the persistence
layer and the caller receives only the error. This holds for
`LoadLangFiles` and for `LoadDataFiles`. -/
theorem fetch_error_aborts_batch (fetch : String → Except String Bytes)
    (isValidJSON : Bytes → Bool) (mkOk : Bool) (writeOk : Nat → Bool)
    (langPath dataPath : String) (fs : FS) (langs : List String)
    (dataFiles : List GenshinDataFileName) (σf σs σf2 σs2 : List Nat)
    (j j2 : Nat) (e e2 : String)
    (hperm : σf.Perm (List.range langs.length))
    (hj : j < langs.length)
    (hje : fetch (langFileUrl (langs.getD j "")) = .error e)
    (hfirst : ∀ k, k < j → ∃ b, fetch (langFileUrl (langs.getD k "")) = .ok b)
    (hperm2 : σf2.Perm (List.range dataFiles.length))
    (hj2 : j2 < dataFiles.length)
    (hje2 : fetch (getDataFileUrl (dataFiles.getD j2 "")) = .error e2)
    (hfirst2 : ∀ k, k < j2 →
      ∃ b, fetch (getDataFileUrl (dataFiles.getD k "")) = .ok b) :
    (LoadLangFiles fetch isValidJSON mkOk writeOk langPath fs langs σf σs).1 =
      some ("failed to load lang file " ++ langs.getD j "" ++ ": " ++ e) ∧
    (LoadLangFiles fetch isValidJSON mkOk writeOk langPath fs langs σf σs).2.1 = fs ∧
    (LoadDataFiles fetch isValidJSON mkOk writeOk dataPath fs dataFiles σf2 σs2).1 =
      some ("failed to load data file " ++ dataFiles.getD j2 "" ++ ": " ++ e2) ∧
    (LoadDataFiles fetch isValidJSON mkOk writeOk dataPath fs dataFiles σf2 σs2).2.1 = fs := by
  have hfe : firstErr (joinedOutcomes fetch (langs.map langFileUrl) σf) =
      some (j, e) := by
    apply firstErr_joined fetch (langs.map langFileUrl) σf j e
      (by simpa using hperm) (by simpa using hj)
    · rw [getD_map_str langFileUrl langs j hj]
      exact hje
    · intro k hk
      rw [getD_map_str langFileUrl langs k (Nat.lt_trans hk hj)]
      exact hfirst k hk
  have hfe2 : firstErr (joinedOutcomes fetch (dataFiles.map getDataFileUrl) σf2) =
      some (j2, e2) := by
    apply firstErr_joined fetch (dataFiles.map getDataFileUrl) σf2 j2 e2
      (by simpa using hperm2) (by simpa using hj2)
    · rw [getD_map_str getDataFileUrl dataFiles j2 hj2]
      exact hje2
    · intro k hk
      rw [getD_map_str getDataFileUrl dataFiles k (Nat.lt_trans hk hj2)]
      exact hfirst2 k hk
  refine ⟨?_, ?_, ?_, ?_⟩ <;> simp only [LoadLangFiles, LoadDataFiles, hfe, hfe2]

/-- Witness for C3: a transport failure on the only identifier of each
batch makes both loaders return the wrapped error naming it and leave the
filesystem empty. -/
theorem fetch_error_aborts_batch_witness :
    (LoadLangFiles (fun _ => .error "boom") (fun _ => true) true (fun _ => true)
        "root/langs" ⟨[], []⟩ ["en"] [0] [0]).1 =
      some ("failed to load lang file " ++ (["en"] : List String).getD 0 "" ++
        ": " ++ "boom") ∧
    (LoadLangFiles (fun _ => .error "boom") (fun _ => true) true (fun _ => true)
        "root/langs" ⟨[], []⟩ ["en"] [0] [0]).2.1 = (⟨[], []⟩ : FS) ∧
    (LoadDataFiles (fun _ => .error "boom") (fun _ => true) true (fun _ => true)
        "root/data" ⟨[], []⟩ ["AvatarExcelConfigData"] [0] [0]).1 =
      some ("failed to load data file " ++
        (["AvatarExcelConfigData"] : List GenshinDataFileName).getD 0 "" ++
        ": " ++ "boom") ∧
    (LoadDataFiles (fun _ => .error "boom") (fun _ => true) true (fun _ => true)
        "root/data" ⟨[], []⟩ ["AvatarExcelConfigData"] [0] [0]).2.1 = (⟨[], []⟩ : FS) :=
  fetch_error_aborts_batch (fun _ => .error "boom") (fun _ => true) true
    (fun _ => true) "root/langs" "root/data" ⟨[], []⟩ ["en"]
    ["AvatarExcelConfigData"] [0] [0] [0] [0] 0 0 "boom" "boom"
    (by decide) (by decide) rfl (fun k hk => absurd hk (Nat.not_lt_zero k))
    (by decide) (by decide) rfl (fun k hk => absurd hk (Nat.not_lt_zero k))

/-- C8 evaluated on the code: `LoadDataFiles` performs no catalog-membership
check. Called with the identifier "NotACatalogFile" — which `IsValid`
rejects — it still issues the network request for that identifier's URL and
completes without any validation error. -/
theorem loadDataFiles_no_catalog_check :
    GenshinDataFileName.IsValid "NotACatalogFile" = false ∧
    (LoadDataFiles (fun _ => .ok [1]) (fun _ => true) true (fun _ => true)
      "root/data" ⟨[], []⟩ ["NotACatalogFile"] [0] [0]).2.2 =
      [getDataFileUrl "NotACatalogFile"] ∧
    (LoadDataFiles (fun _ => .ok [1]) (fun _ => true) true (fun _ => true)
      "root/data" ⟨[], []⟩ ["NotACatalogFile"] [0] [0]).1 = none := by
  refine ⟨by decide, by decide, by decide⟩

end Genka
